import Mathlib

/-!
Verification of the multi-LLM MCP client (TypeScript repository) against its
natural-language specification.

The development shallowly embeds the code of
`src/mcp/mcp_client.ts` (the transport session / JSON-RPC client),
`src/core/multi-llm-mcp-client.ts` (the orchestrator), and the three
chat-provider adapters (`providers/openai`, `providers/google`, and the
Anthropic provider) as pure Lean functions.  Stateful code is embedded as
explicit state passing: each operation takes the client state and returns the
new state together with the list of promise settlements (resolutions /
rejections) it performs.  External effects (the subprocess's replies, each
registered server's `listTools`/`callTool` outcomes, the hosted backend's
reply) are inputs to the embedded functions.
-/

/-! ## Transport session (`src/mcp/mcp_client.ts`) -/

/-- State of one `MCPClient` transport session: the `connected` flag, whether a
child process handle exists (`this.process`), the `messageId` counter, and the
keys of the `pendingRequests` map (the map's values are the `resolve`/`reject`
continuations; a settlement event carrying the id stands for invoking them). -/
structure MCPState where
  connected : Bool
  hasProcess : Bool
  messageId : Nat
  pending : List Nat
deriving DecidableEq

/-- A settlement of one caller's promise: the continuation stored under `id`
in `pendingRequests` is invoked with a result or an error message. -/
inductive Settlement
  | resolved (id : Nat) (result : String)
  | rejected (id : Nat) (message : String)
deriving DecidableEq

/-- One parsed JSON-RPC message as `handleMessage` sees it after
`JSON.parse`: an optional `id` field, an optional `error` object (modelled by
its `message`), and the `result` payload (modelled as an opaque token). -/
structure RpcMsg where
  id : Option Nat
  error : Option String
  result : String
deriving DecidableEq

/-- One newline-terminated segment of an incoming data chunk, after
`data.trim().split('\n')`: a blank line (skipped by `if (!line.trim())
continue`), a segment on which `JSON.parse` throws, or a parsed message. -/
inductive Segment
  | blank
  | malformed (raw : String)
  | msg (m : RpcMsg)
deriving DecidableEq

/-- Whether a segment is one on which `JSON.parse` throws. -/
def Segment.malformedQ : Segment → Bool
  | .malformed _ => true
  | _ => false

/-- `MCPClient.disconnect` (mcp_client.ts:73-83): if not connected or no
process, return; otherwise kill the process, set `connected = false`, and
`pendingRequests.clear()`.  The cleared requests are not settled: the returned
settlement list is what the source rejects/resolves, and it is empty. -/
def disconnect (st : MCPState) : MCPState × List Settlement :=
  if st.connected = false ∨ st.hasProcess = false then
    (st, [])
  else
    ({ st with connected := false, pending := [] }, [])

/-- `MCPClient.sendRequest` (mcp_client.ts:116-142): `id = ++this.messageId`,
register the pending request, write the serialized message if stdin exists,
otherwise reject immediately with `No stdin available`.  Returns the new
state, the assigned id, and the settlements performed synchronously. -/
def sendRequest (st : MCPState) : MCPState × Nat × List Settlement :=
  let id := st.messageId + 1
  let st' := { st with messageId := id, pending := st.pending ++ [id] }
  if st.hasProcess then
    (st', id, [])
  else
    (st', id, [Settlement.rejected id "No stdin available"])

/-- The 30-second timer scheduled by `sendRequest` (mcp_client.ts:135-140)
firing for request `id`: if the id is still pending it is deleted and the
caller is rejected with `Request timeout`; otherwise nothing happens. -/
def timeoutFire (st : MCPState) (id : Nat) : MCPState × List Settlement :=
  if id ∈ st.pending then
    ({ st with pending := st.pending.erase id },
      [Settlement.rejected id "Request timeout"])
  else
    (st, [])

/-- The body of the `for` loop of `MCPClient.handleMessage`
(mcp_client.ts:150-161) on one parsed message: if `message.id` is truthy and
the id is pending, the continuation is removed and invoked — rejected with the
error's message when `message.error` is set, resolved with `message.result`
otherwise; any other message is dropped. -/
def handleSeg (st : MCPState) (m : RpcMsg) : MCPState × List Settlement :=
  match m.id with
  | none => (st, [])
  | some i =>
    if i ≠ 0 ∧ i ∈ st.pending then
      ({ st with pending := st.pending.erase i },
        match m.error with
        | some emsg => [Settlement.rejected i emsg]
        | none => [Settlement.resolved i m.result])
    else
      (st, [])

/-- The `for` loop of `MCPClient.handleMessage` (mcp_client.ts:145-165)
over the segments of one chunk.  The `try`/`catch` is outside the loop, so a
segment on which `JSON.parse` throws transfers control to the `catch`: the
error is logged (the `Bool` component) and the remaining segments of the chunk
are not processed.  Blank segments are skipped by `continue`. -/
def handleLines (st : MCPState) : List Segment → MCPState × List Settlement × Bool
  | [] => (st, [], false)
  | Segment.blank :: rest => handleLines st rest
  | Segment.malformed _ :: _ => (st, [], true)
  | Segment.msg m :: rest =>
    ((handleLines (handleSeg st m).1 rest).1,
      (handleSeg st m).2 ++ (handleLines (handleSeg st m).1 rest).2.1,
      (handleLines (handleSeg st m).1 rest).2.2)

/-- `MCPClient.handleMessage` on one incoming data chunk, the chunk given as
its list of newline-terminated segments (the `data.trim().split('\n')`
deframing).  Returns the new state, the settlements performed, and whether the
`catch` branch logged a parse failure. -/
def handleMessage (st : MCPState) (segs : List Segment) :
    MCPState × List Settlement × Bool :=
  handleLines st segs

/-! ## Claim C1 — `disconnect` and outstanding requests -/

/-- Claim C1, counterexample: with requests 1 and 2 outstanding, request 1 is
pending, yet `disconnect()` performs no settlement at all — in particular the
pending promise is not rejected with a ConnectionClosed error, contradicting
the claim that each of the N pending promises is so rejected. -/
theorem disconnect_cex :
    1 ∈ (MCPState.mk true true 2 [1, 2]).pending ∧
      ¬ ∃ m, Settlement.rejected 1 m ∈ (disconnect (MCPState.mk true true 2 [1, 2])).2 := by
  constructor
  · decide
  · intro ⟨m, hm⟩
    simp [disconnect] at hm

/-- Claim C1, amended: `disconnect()` on a live session settles none of the
outstanding requests — it empties the pending map (so no promise rejects with
a TimeoutError afterwards: every timer finds its id gone and does nothing) but
also rejects nothing with ConnectionClosed; the callers' promises are left
unsettled forever. -/
theorem disconnect_settles_nothing (st : MCPState) :
    (disconnect st).2 = []
    ∧ (st.connected = true → st.hasProcess = true → (disconnect st).1.pending = [])
    ∧ (∀ id, st.connected = true → st.hasProcess = true →
        timeoutFire (disconnect st).1 id = ((disconnect st).1, [])) := by
  refine ⟨?_, ?_, ?_⟩
  · by_cases h : st.connected = false ∨ st.hasProcess = false <;>
      simp [disconnect, h]
  · intro hc hp
    simp [disconnect, hc, hp]
  · intro id hc hp
    have hpend : (disconnect st).1.pending = [] := by
      simp [disconnect, hc, hp]
    simp [timeoutFire, hpend]

/-- Claim C1, witness: the amended theorem applied to a session with two
outstanding requests. -/
theorem disconnect_settles_nothing_inst :
    (disconnect (MCPState.mk true true 2 [1, 2])).2 = []
    ∧ (disconnect (MCPState.mk true true 2 [1, 2])).1.pending = []
    ∧ timeoutFire (disconnect (MCPState.mk true true 2 [1, 2])).1 1
        = ((disconnect (MCPState.mk true true 2 [1, 2])).1, []) :=
  ⟨(disconnect_settles_nothing _).1,
    (disconnect_settles_nothing _).2.1 rfl rfl,
    (disconnect_settles_nothing _).2.2 1 rfl rfl⟩

/-! ## Claim C4 — malformed segment inside a chunk -/

/-- Claim C4, counterexample: a chunk carrying a well-formed response for
pending request 1, then a malformed segment, then a well-formed response for
pending request 2.  The code settles request 1, logs the parse failure, and
abandons the rest of the chunk: request 2 stays pending and its response is
never delivered, contradicting the claim that every well-formed segment after
the malformed one is still processed. -/
theorem handleMessage_cex :
    handleMessage (MCPState.mk true true 2 [1, 2])
        [Segment.msg (RpcMsg.mk (some 1) none "r1"),
          Segment.malformed "not json",
          Segment.msg (RpcMsg.mk (some 2) none "r2")]
      = (MCPState.mk true true 2 [2], [Settlement.resolved 1 "r1"], true)
    ∧ Settlement.resolved 2 "r2"
        ∉ (handleMessage (MCPState.mk true true 2 [1, 2])
            [Segment.msg (RpcMsg.mk (some 1) none "r1"),
              Segment.malformed "not json",
              Segment.msg (RpcMsg.mk (some 2) none "r2")]).2.1 := by
  constructor
  · decide
  · decide

/-- Claim C4, amended: within one chunk, the segments before the first
malformed segment are processed normally (each settling its matching pending
request), the malformed segment is logged rather than crashing the handler,
and the remainder of the chunk — including well-formed segments after the
malformed one — is not processed. -/
theorem handleMessage_stops_at_malformed
    (st : MCPState) (pre post : List Segment) (raw : String)
    (h : ∀ seg ∈ pre, seg.malformedQ = false) :
    handleMessage st (pre ++ Segment.malformed raw :: post)
      = ((handleMessage st pre).1, (handleMessage st pre).2.1, true) := by
  induction pre generalizing st with
  | nil => simp [handleMessage, handleLines]
  | cons seg rest ih =>
    have hrest : ∀ s ∈ rest, s.malformedQ = false :=
      fun s hs => h s (List.mem_cons_of_mem _ hs)
    cases seg with
    | blank =>
      simpa [handleMessage, handleLines] using ih st hrest
    | malformed r =>
      have := h (Segment.malformed r) (List.mem_cons_self _ _)
      simp [Segment.malformedQ] at this
    | msg m =>
      have ihm := ih (handleSeg st m).1 hrest
      simp only [handleMessage] at ihm
      simp only [handleMessage, List.cons_append, handleLines, List.append_eq]
      rw [ihm]

/-- Claim C4, witness: the amended theorem applied to the chunk of the
counterexample scenario (one well-formed segment before the malformed one). -/
theorem handleMessage_stops_at_malformed_inst :
    handleMessage (MCPState.mk true true 2 [1, 2])
        ([Segment.msg (RpcMsg.mk (some 1) none "r1")] ++ Segment.malformed "oops"
          :: [Segment.msg (RpcMsg.mk (some 2) none "r2")])
      = ((handleMessage (MCPState.mk true true 2 [1, 2])
            [Segment.msg (RpcMsg.mk (some 1) none "r1")]).1,
          (handleMessage (MCPState.mk true true 2 [1, 2])
            [Segment.msg (RpcMsg.mk (some 1) none "r1")]).2.1, true) :=
  handleMessage_stops_at_malformed _ _ _ _ (by decide)

/-! ## Claim C5 — timeout, removal, late response dropped -/

/-- Claim C5 (confirmed): when the 30-second timer fires for a request with no
correlated response, the caller is rejected with the timeout error
(`Request timeout`, the transport's TimeoutError), the id is removed from the
pending map, and a response bearing that id arriving afterwards settles
nothing, changes nothing, and is not logged as a failure — it is silently
dropped and delivered to no other caller. -/
theorem timeout_rejects_and_drops_late
    (st : MCPState) (id : Nat) (msg : RpcMsg)
    (hmem : id ∈ st.pending) (hnd : st.pending.Nodup) (hid : msg.id = some id) :
    (timeoutFire st id).2 = [Settlement.rejected id "Request timeout"]
    ∧ id ∉ (timeoutFire st id).1.pending
    ∧ handleMessage (timeoutFire st id).1 [Segment.msg msg]
        = ((timeoutFire st id).1, [], false) := by
  have hnotmem : id ∉ st.pending.erase id := by
    intro hc
    exact absurd rfl ((List.Nodup.mem_erase_iff hnd).1 hc).1
  refine ⟨?_, ?_, ?_⟩
  · simp [timeoutFire, hmem]
  · simp [timeoutFire, hmem]
    exact hnotmem
  · have hpend : (timeoutFire st id).1.pending = st.pending.erase id := by
      simp [timeoutFire, hmem]
    have hseg : handleSeg (timeoutFire st id).1 msg = ((timeoutFire st id).1, []) := by
      rw [handleSeg, hid]
      simp [hpend, hnotmem]
    simp [handleMessage, handleLines, hseg]

/-- Claim C5, witness: a session with requests 1 and 2 pending; the timer for
request 1 fires, then a late response for id 1 arrives. -/
theorem timeout_rejects_and_drops_late_inst :
    (timeoutFire (MCPState.mk true true 2 [1, 2]) 1).2
        = [Settlement.rejected 1 "Request timeout"]
    ∧ 1 ∉ (timeoutFire (MCPState.mk true true 2 [1, 2]) 1).1.pending
    ∧ handleMessage (timeoutFire (MCPState.mk true true 2 [1, 2]) 1).1
          [Segment.msg (RpcMsg.mk (some 1) none "late")]
        = ((timeoutFire (MCPState.mk true true 2 [1, 2]) 1).1, [], false) :=
  timeout_rejects_and_drops_late _ 1 _ (by decide) (by decide) rfl

/-! ## Claim C9 — monotonically increasing, never-reused request ids -/

/-- Claim C9 (confirmed): `sendRequest` assigns `messageId + 1`, which is
strictly greater than every previously assigned id of the session (all of
which are at most `messageId`), hence not equal to any id still pending; and
the bound `every pending id ≤ messageId` is preserved, so ids are never reused
while a request under them is outstanding. -/
theorem sendRequest_fresh_id (st : MCPState)
    (h : ∀ i ∈ st.pending, i ≤ st.messageId) :
    (sendRequest st).2.1 = st.messageId + 1
    ∧ (sendRequest st).2.1 ∉ st.pending
    ∧ (∀ i, i ≤ st.messageId → i < (sendRequest st).2.1)
    ∧ (∀ i ∈ (sendRequest st).1.pending, i ≤ (sendRequest st).1.messageId) := by
  have hid : (sendRequest st).2.1 = st.messageId + 1 := by
    by_cases hp : st.hasProcess <;> simp [sendRequest, hp]
  have hst : (sendRequest st).1.pending = st.pending ++ [st.messageId + 1]
      ∧ (sendRequest st).1.messageId = st.messageId + 1 := by
    by_cases hp : st.hasProcess <;> simp [sendRequest, hp]
  refine ⟨hid, ?_, ?_, ?_⟩
  · rw [hid]
    intro hc
    exact absurd (h _ hc) (by omega)
  · intro i hi
    rw [hid]
    omega
  · intro i hi
    rw [hst.1] at hi
    rw [hst.2]
    rcases List.mem_append.1 hi with hi | hi
    · exact Nat.le_succ_of_le (h i hi)
    · simp at hi
      omega

/-- Claim C9, witness: a session that has already assigned ids up to 5, with 4
and 5 still pending; the next request gets the fresh id 6. -/
theorem sendRequest_fresh_id_inst :
    (sendRequest (MCPState.mk true true 5 [4, 5])).2.1 = 6
    ∧ (sendRequest (MCPState.mk true true 5 [4, 5])).2.1
        ∉ (MCPState.mk true true 5 [4, 5]).pending :=
  ⟨(sendRequest_fresh_id _ (by decide)).1,
    (sendRequest_fresh_id _ (by decide)).2.1⟩

/-! ## Shared chat data model (`src/types/index.ts`) -/

/-- `ChatMessage.role` (`'user' | 'assistant' | 'system'`). -/
inductive Role
  | user
  | assistant
  | system
deriving DecidableEq

/-- A model-issued tool call (`ToolCall`): `type` is always `'function'` and
is left implicit; `arguments` is the raw JSON string. -/
structure ToolCall where
  id : String
  name : String
  arguments : String
deriving DecidableEq

/-- `ChatMessage`. -/
structure ChatMessage where
  role : Role
  content : String
  toolCalls : Option (List ToolCall)
  toolCallId : Option String
deriving DecidableEq

/-- An MCP-advertised tool (`MCPTool`); `inputSchema` is an opaque token. -/
structure MCPTool where
  name : String
  description : String
  inputSchema : String
deriving DecidableEq

/-- A provider-formatted tool (`Tool`): `type` is always `'function'`;
`parameters` is the embedded input schema. -/
structure Tool where
  name : String
  description : String
  parameters : String
deriving DecidableEq

/-- `LLMResponse.finishReason`. -/
inductive FinishReason
  | stop
  | length
  | tool_calls
  | content_filter
deriving DecidableEq

/-- `LLMResponse.usage`. -/
structure Usage where
  promptTokens : Nat
  completionTokens : Nat
  totalTokens : Nat
deriving DecidableEq

/-- `LLMResponse`. -/
structure LLMResponse where
  content : String
  toolCalls : Option (List ToolCall)
  finishReason : FinishReason
  usage : Option Usage
deriving DecidableEq

/-- `LLMProviderError` (`src/errors/index.ts`): message plus the backend
identifier; the wrapped `cause` is dropped. -/
structure LLMProviderError where
  message : String
  provider : String
deriving DecidableEq

/-- The `formatTools` method, identical in all three providers
(e.g. google.provider.ts:71-80): each `MCPTool` becomes a function-typed
`Tool` with the input schema as `parameters`. -/
def formatTools (mcpTools : List MCPTool) : List Tool :=
  mcpTools.map fun t => ⟨t.name, t.description, t.inputSchema⟩

/-! ## Orchestrator (`src/core/multi-llm-mcp-client.ts`) -/

/-- Behaviour of one registered, connected `IMCPClient` during a single
orchestrator operation: the outcome of its `listTools()` and of `callTool` per
tool name (results and errors as opaque strings). -/
structure MCPServerModel where
  listTools : Except String (List MCPTool)
  callTool : String → Except String String

/-- Instrumentation of the orchestrator's scan: which server had `listTools`
invoked, and which had `callTool` invoked for which tool. -/
inductive ToolCallEvent
  | listed (server : String)
  | called (server : String) (tool : String)
deriving DecidableEq

/-- `MultiLLMMCPClient.executeToolCall` (multi-llm-mcp-client.ts:49-64):
iterate `this.mcpClients` in registration order; per server, inside
`try`: `listTools()`, find the name, and if found `return await callTool`;
any error — from `listTools` or from `callTool` — is caught, logged, and the
loop continues; after the loop, throw `Tool not found`.  Returns the outcome
together with the trace of invocations. -/
def executeToolCall :
    List (String × MCPServerModel) → String → Except String String × List ToolCallEvent
  | [], name => (Except.error ("Tool not found: " ++ name), [])
  | (sname, srv) :: rest, name =>
    match srv.listTools with
    | Except.error _ =>
      ((executeToolCall rest name).1,
        ToolCallEvent.listed sname :: (executeToolCall rest name).2)
    | Except.ok tools =>
      if tools.any fun t => t.name == name then
        match srv.callTool name with
        | Except.ok r =>
          (Except.ok r, [ToolCallEvent.listed sname, ToolCallEvent.called sname name])
        | Except.error _ =>
          ((executeToolCall rest name).1,
            ToolCallEvent.listed sname :: ToolCallEvent.called sname name
              :: (executeToolCall rest name).2)
      else
        ((executeToolCall rest name).1,
          ToolCallEvent.listed sname :: (executeToolCall rest name).2)

/-- `MultiLLMMCPClient.getAllTools` (multi-llm-mcp-client.ts:66-79): per
server, `listTools()` inside `try` — on success the tools are appended, on
error the failure is logged and the server contributes nothing.  The function
is total: aggregation never rejects. -/
def getAllTools : List (String × MCPServerModel) → List MCPTool
  | [] => []
  | (_, srv) :: rest =>
    (match srv.listTools with
      | Except.ok ts => ts
      | Except.error _ => []) ++ getAllTools rest

/-- Whether a server's `listTools` result contains the tool name — the
condition `tools.find(t => t.name === name)` of the `executeToolCall` scan. -/
def advertises (srv : MCPServerModel) (name : String) : Bool :=
  match srv.listTools with
  | Except.ok ts => ts.any fun t => t.name == name
  | Except.error _ => false

/-- Behaviour of one registered chat provider: its `chatCompletion` as a
function of the conversation and the formatted tools. -/
structure ProviderModel where
  chatCompletion : List ChatMessage → List Tool → Except LLMProviderError LLMResponse

/-- `MultiLLMMCPClient.chat` (multi-llm-mcp-client.ts:30-47): look up the
provider (throw `LLM provider not found` if absent), aggregate tools from all
servers when `includeTools` is set, format them, and delegate to the
provider's `chatCompletion`. -/
def chat (providers : List (String × ProviderModel))
    (servers : List (String × MCPServerModel)) (providerName : String)
    (messages : List ChatMessage) (includeTools : Bool) :
    Except String LLMResponse :=
  match providers.lookup providerName with
  | none => Except.error ("LLM provider not found: " ++ providerName)
  | some p =>
    match p.chatCompletion messages
        (formatTools (if includeTools then getAllTools servers else [])) with
    | Except.ok r => Except.ok r
    | Except.error e => Except.error e.message

/-- Aggregation distributes over registry concatenation. -/
theorem getAllTools_append (a b : List (String × MCPServerModel)) :
    getAllTools (a ++ b) = getAllTools a ++ getAllTools b := by
  induction a with
  | nil => simp [getAllTools]
  | cons hd tl ih =>
    obtain ⟨n, s⟩ := hd
    simp [getAllTools, ih]

/-- A prefix of servers none of which advertises the name contributes only
`listed` events to the `executeToolCall` scan and does not affect its
outcome. -/
theorem executeToolCall_skip (pre rest : List (String × MCPServerModel))
    (name : String) (h : ∀ p ∈ pre, advertises p.2 name = false) :
    executeToolCall (pre ++ rest) name
      = ((executeToolCall rest name).1,
          pre.map (fun p => ToolCallEvent.listed p.1) ++ (executeToolCall rest name).2) := by
  induction pre with
  | nil => simp
  | cons hd tl ih =>
    obtain ⟨n, s⟩ := hd
    have hhd : advertises s name = false := h (n, s) (List.mem_cons_self _ _)
    have htl : ∀ p ∈ tl, advertises p.2 name = false :=
      fun p hp => h p (List.mem_cons_of_mem _ hp)
    cases hs : s.listTools with
    | error e =>
      simp [executeToolCall, hs, ih htl]
    | ok ts =>
      have hany : (ts.any fun t => t.name == name) = false := by
        have h2 := hhd
        unfold advertises at h2
        rw [hs] at h2
        exact h2
      simp [executeToolCall, hs, hany, ih htl]

/-! ## Claim C2 — `executeTool` routing and short-circuit -/

/-- Claim C2, counterexample: server `A` (registered first) advertises tool
`t` but its `callTool` fails; server `B` also advertises `t` and its call
succeeds.  The claim predicts the operation fails with `A`'s outcome without
querying `B`; the code instead logs `A`'s failure, queries `B`, invokes its
`callTool`, and returns `B`'s result. -/
theorem executeToolCall_cex :
    executeToolCall
        [("A", ⟨Except.ok [⟨"t", "dA", "sA"⟩], fun _ => Except.error "boom"⟩),
          ("B", ⟨Except.ok [⟨"t", "dB", "sB"⟩], fun _ => Except.ok "rB"⟩)] "t"
      = (Except.ok "rB",
          [ToolCallEvent.listed "A", ToolCallEvent.called "A" "t",
            ToolCallEvent.listed "B", ToolCallEvent.called "B" "t"])
    ∧ (executeToolCall
        [("A", ⟨Except.ok [⟨"t", "dA", "sA"⟩], fun _ => Except.error "boom"⟩),
          ("B", ⟨Except.ok [⟨"t", "dB", "sB"⟩], fun _ => Except.ok "rB"⟩)] "t").1
      ≠ Except.error "boom" := by
  constructor
  · rfl
  · intro hc
    rw [show (executeToolCall
        [("A", ⟨Except.ok [⟨"t", "dA", "sA"⟩], fun _ => Except.error "boom"⟩),
          ("B", ⟨Except.ok [⟨"t", "dB", "sB"⟩], fun _ => Except.ok "rB"⟩)] "t").1
        = Except.ok "rB" from rfl] at hc
    exact Except.noConfusion hc

/-- Claim C2, amended: `executeTool` scans registered servers in registration
order; servers before the first owner only have `listTools` invoked, never
`callTool`; at the first server whose `listTools` result contains the name,
`callTool` is invoked, and a successful call's result is returned immediately
without querying any remaining server — but a failing `callTool` is caught and
logged and the scan continues with the remaining servers. -/
theorem executeToolCall_routes_to_first_owner
    (pre post : List (String × MCPServerModel)) (oname name : String)
    (osrv : MCPServerModel) (ts : List MCPTool)
    (hpre : ∀ p ∈ pre, advertises p.2 name = false)
    (hlt : osrv.listTools = Except.ok ts)
    (hmem : (ts.any fun t => t.name == name) = true) :
    (∀ r, osrv.callTool name = Except.ok r →
      executeToolCall (pre ++ (oname, osrv) :: post) name
        = (Except.ok r, pre.map (fun p => ToolCallEvent.listed p.1)
            ++ [ToolCallEvent.listed oname, ToolCallEvent.called oname name]))
    ∧ (∀ e, osrv.callTool name = Except.error e →
      executeToolCall (pre ++ (oname, osrv) :: post) name
        = ((executeToolCall post name).1,
            pre.map (fun p => ToolCallEvent.listed p.1)
              ++ ToolCallEvent.listed oname :: ToolCallEvent.called oname name
              :: (executeToolCall post name).2)) := by
  constructor
  · intro r hr
    rw [executeToolCall_skip pre _ name hpre]
    simp [executeToolCall, hlt, hmem, hr]
  · intro e he
    rw [executeToolCall_skip pre _ name hpre]
    simp [executeToolCall, hlt, hmem, he]

/-- Claim C2, witness: a non-owning first server, then the owner whose call
succeeds — the result is returned with no further server queried. -/
theorem executeToolCall_routes_to_first_owner_inst :
    executeToolCall
        [("N", ⟨Except.ok [⟨"other", "dN", "sN"⟩], fun _ => Except.ok "rN"⟩),
          ("O", ⟨Except.ok [⟨"t", "dO", "sO"⟩], fun _ => Except.ok "rO"⟩),
          ("P", ⟨Except.ok [⟨"t", "dP", "sP"⟩], fun _ => Except.ok "rP"⟩)] "t"
      = (Except.ok "rO",
          [("N", (⟨Except.ok [⟨"other", "dN", "sN"⟩], fun _ => Except.ok "rN"⟩ : MCPServerModel))].map
              (fun p => ToolCallEvent.listed p.1)
            ++ [ToolCallEvent.listed "O", ToolCallEvent.called "O" "t"]) :=
  (executeToolCall_routes_to_first_owner
      [("N", ⟨Except.ok [⟨"other", "dN", "sN"⟩], fun _ => Except.ok "rN"⟩)]
      [("P", ⟨Except.ok [⟨"t", "dP", "sP"⟩], fun _ => Except.ok "rP"⟩)]
      "O" "t" ⟨Except.ok [⟨"t", "dO", "sO"⟩], fun _ => Except.ok "rO"⟩
      [⟨"t", "dO", "sO"⟩]
      (by intro p hp; simp at hp; subst hp; rfl)
      rfl rfl).1 "rO" rfl

/-! ## Claim C6 — one failing `listTools` does not poison aggregation -/

/-- Claim C6 (confirmed): a registered server whose `listTools` rejects
contributes nothing to `getAllTools` — the aggregate is exactly the union of
every other server's tools, and the `chat` call aggregating with
`includeTools` behaves as if the failing server were absent.  Both operations
are total: the failure is only logged, never propagated. -/
theorem getAllTools_tolerates_failure
    (pre post : List (String × MCPServerModel)) (n e : String) (f : MCPServerModel)
    (providers : List (String × ProviderModel)) (pname : String)
    (messages : List ChatMessage)
    (hf : f.listTools = Except.error e) :
    getAllTools (pre ++ (n, f) :: post) = getAllTools pre ++ getAllTools post
    ∧ chat providers (pre ++ (n, f) :: post) pname messages true
        = chat providers (pre ++ post) pname messages true := by
  have h1 : getAllTools (pre ++ (n, f) :: post) = getAllTools pre ++ getAllTools post := by
    rw [getAllTools_append]
    simp [getAllTools, hf]
  refine ⟨h1, ?_⟩
  unfold chat
  rw [h1, getAllTools_append]

/-- Claim C6, witness: three registered servers, the middle one failing; the
aggregate is the union of the first and third servers' tools, and `chat` over
the three-server registry equals `chat` over the registry without the failing
server. -/
theorem getAllTools_tolerates_failure_inst :
    getAllTools
        [("S1", ⟨Except.ok [⟨"a", "da", "pa"⟩], fun _ => Except.ok "r1"⟩),
          ("S2", ⟨Except.error "down", fun _ => Except.ok "r2"⟩),
          ("S3", ⟨Except.ok [⟨"b", "db", "pb"⟩], fun _ => Except.ok "r3"⟩)]
      = getAllTools [("S1", ⟨Except.ok [⟨"a", "da", "pa"⟩], fun _ => Except.ok "r1"⟩)]
        ++ getAllTools [("S3", ⟨Except.ok [⟨"b", "db", "pb"⟩], fun _ => Except.ok "r3"⟩)]
    ∧ chat [("p", ⟨fun _ _ => Except.ok ⟨"hi", none, FinishReason.stop, none⟩⟩)]
        [("S1", ⟨Except.ok [⟨"a", "da", "pa"⟩], fun _ => Except.ok "r1"⟩),
          ("S2", ⟨Except.error "down", fun _ => Except.ok "r2"⟩),
          ("S3", ⟨Except.ok [⟨"b", "db", "pb"⟩], fun _ => Except.ok "r3"⟩)]
        "p" [] true
      = chat [("p", ⟨fun _ _ => Except.ok ⟨"hi", none, FinishReason.stop, none⟩⟩)]
        [("S1", ⟨Except.ok [⟨"a", "da", "pa"⟩], fun _ => Except.ok "r1"⟩),
          ("S3", ⟨Except.ok [⟨"b", "db", "pb"⟩], fun _ => Except.ok "r3"⟩)]
        "p" [] true :=
  getAllTools_tolerates_failure
    [("S1", ⟨Except.ok [⟨"a", "da", "pa"⟩], fun _ => Except.ok "r1"⟩)]
    [("S3", ⟨Except.ok [⟨"b", "db", "pb"⟩], fun _ => Except.ok "r3"⟩)]
    "S2" "down" ⟨Except.error "down", fun _ => Except.ok "r2"⟩
    [("p", ⟨fun _ _ => Except.ok ⟨"hi", none, FinishReason.stop, none⟩⟩)]
    "p" [] rfl

/-! ## Claim C7 — duplicate tool names across servers -/

/-- Claim C7, counterexample: servers `A` and `B` (registered in that order)
both advertise a tool named `t`.  The aggregate presents the name twice, not
once (`getAllTools` performs no deduplication), and `executeToolCall` resolves
the name to the earlier registration `A` — `B`'s `callTool` is never invoked.
Both halves contradict the claim that the later registration wins and that the
aggregate presents the name once. -/
theorem duplicate_tool_cex :
    (getAllTools
        [("A", ⟨Except.ok [⟨"t", "dA", "sA"⟩], fun _ => Except.ok "rA"⟩),
          ("B", ⟨Except.ok [⟨"t", "dB", "sB"⟩], fun _ => Except.ok "rB"⟩)]).countP
        (fun t => t.name == "t") = 2
    ∧ (executeToolCall
        [("A", ⟨Except.ok [⟨"t", "dA", "sA"⟩], fun _ => Except.ok "rA"⟩),
          ("B", ⟨Except.ok [⟨"t", "dB", "sB"⟩], fun _ => Except.ok "rB"⟩)] "t").1
      = Except.ok "rA"
    ∧ ToolCallEvent.called "B" "t"
        ∉ (executeToolCall
            [("A", ⟨Except.ok [⟨"t", "dA", "sA"⟩], fun _ => Except.ok "rA"⟩),
              ("B", ⟨Except.ok [⟨"t", "dB", "sB"⟩], fun _ => Except.ok "rB"⟩)] "t").2 := by
  refine ⟨rfl, rfl, ?_⟩
  rw [show (executeToolCall
      [("A", ⟨Except.ok [⟨"t", "dA", "sA"⟩], fun _ => Except.ok "rA"⟩),
        ("B", ⟨Except.ok [⟨"t", "dB", "sB"⟩], fun _ => Except.ok "rB"⟩)] "t").2
      = [ToolCallEvent.listed "A", ToolCallEvent.called "A" "t"] from rfl]
  decide

/-- Claim C7, amended: when two registered servers both advertise the same
tool name, the aggregate keeps both entries (the name occurs at least twice —
no deduplication, so neither registration shadows the other in the aggregate),
and `executeTool` resolves the name to the EARLIEST-registered advertiser (its
call succeeding): the later server's tool of that name is the one that is not
addressable, its `callTool` never being invoked. -/
theorem duplicate_name_earliest_wins
    (pre mid post : List (String × MCPServerModel)) (na nb name ra : String)
    (sa sb : MCPServerModel) (tsa tsb : List MCPTool)
    (hpre : ∀ p ∈ pre, advertises p.2 name = false)
    (ha : sa.listTools = Except.ok tsa)
    (hamem : (tsa.any fun t => t.name == name) = true)
    (hb : sb.listTools = Except.ok tsb)
    (hbmem : (tsb.any fun t => t.name == name) = true)
    (hcall : sa.callTool name = Except.ok ra)
    (hne : nb ≠ na) :
    (executeToolCall (pre ++ (na, sa) :: (mid ++ (nb, sb) :: post)) name).1 = Except.ok ra
    ∧ ToolCallEvent.called nb name
        ∉ (executeToolCall (pre ++ (na, sa) :: (mid ++ (nb, sb) :: post)) name).2
    ∧ 2 ≤ (getAllTools (pre ++ (na, sa) :: (mid ++ (nb, sb) :: post))).countP
        (fun t => t.name == name) := by
  have hrun : executeToolCall (pre ++ (na, sa) :: (mid ++ (nb, sb) :: post)) name
      = (Except.ok ra, pre.map (fun p => ToolCallEvent.listed p.1)
          ++ [ToolCallEvent.listed na, ToolCallEvent.called na name]) := by
    rw [executeToolCall_skip pre _ name hpre]
    simp [executeToolCall, ha, hamem, hcall]
  refine ⟨by rw [hrun], ?_, ?_⟩
  · rw [hrun]
    intro hc
    rcases List.mem_append.1 hc with hmap | hpair
    · obtain ⟨p, _, hp⟩ := List.mem_map.1 hmap
      exact ToolCallEvent.noConfusion hp
    · simp at hpair
      exact hne hpair
  · have hsplit : getAllTools (pre ++ (na, sa) :: (mid ++ (nb, sb) :: post))
        = getAllTools pre ++ tsa ++ getAllTools mid ++ tsb ++ getAllTools post := by
      rw [getAllTools_append]
      simp only [getAllTools, ha]
      rw [getAllTools_append]
      simp only [getAllTools, hb]
      simp [List.append_assoc]
    have hca : 0 < tsa.countP fun t => t.name == name := by
      rw [List.countP_pos_iff]
      obtain ⟨x, hx, hfx⟩ := List.any_eq_true.1 hamem
      exact ⟨x, hx, hfx⟩
    have hcb : 0 < tsb.countP fun t => t.name == name := by
      rw [List.countP_pos_iff]
      obtain ⟨x, hx, hfx⟩ := List.any_eq_true.1 hbmem
      exact ⟨x, hx, hfx⟩
    rw [hsplit]
    simp only [List.countP_append]
    omega

/-- Claim C7, witness: the amended theorem at the two-server registry of the
counterexample. -/
theorem duplicate_name_earliest_wins_inst :
    (executeToolCall
        ([] ++ ("A", (⟨Except.ok [⟨"t", "dA", "sA"⟩], fun _ => Except.ok "rA"⟩ : MCPServerModel))
          :: ([] ++ ("B", (⟨Except.ok [⟨"t", "dB", "sB"⟩], fun _ => Except.ok "rB"⟩ : MCPServerModel))
          :: [])) "t").1 = Except.ok "rA"
    ∧ ToolCallEvent.called "B" "t"
        ∉ (executeToolCall
            ([] ++ ("A", (⟨Except.ok [⟨"t", "dA", "sA"⟩], fun _ => Except.ok "rA"⟩ : MCPServerModel))
              :: ([] ++ ("B", (⟨Except.ok [⟨"t", "dB", "sB"⟩], fun _ => Except.ok "rB"⟩ : MCPServerModel))
              :: [])) "t").2
    ∧ 2 ≤ (getAllTools
        ([] ++ ("A", (⟨Except.ok [⟨"t", "dA", "sA"⟩], fun _ => Except.ok "rA"⟩ : MCPServerModel))
          :: ([] ++ ("B", (⟨Except.ok [⟨"t", "dB", "sB"⟩], fun _ => Except.ok "rB"⟩ : MCPServerModel))
          :: []))).countP (fun t => t.name == "t") :=
  duplicate_name_earliest_wins [] [] [] "A" "B" "t" "rA"
    ⟨Except.ok [⟨"t", "dA", "sA"⟩], fun _ => Except.ok "rA"⟩
    ⟨Except.ok [⟨"t", "dB", "sB"⟩], fun _ => Except.ok "rB"⟩
    [⟨"t", "dA", "sA"⟩] [⟨"t", "dB", "sB"⟩]
    (by intro p hp; simp at hp)
    rfl rfl rfl rfl rfl (by decide)

/-! ## Chat-provider adapters -/

/-- A `ChatMessage` role as the string it carries on the wire. -/
def roleString : Role → String
  | Role.user => "user"
  | Role.assistant => "assistant"
  | Role.system => "system"

/-- The request body built by `OpenAIProvider.chatCompletion`
(google.provider.ts:116-131 of the concatenated providers file): every
message — the system one included — is mapped in-band into the `messages`
array with its role preserved, plus optional `tool_calls`/`tool_call_id`. -/
structure OpenAIMessage where
  role : String
  content : String
  tool_calls : Option (List ToolCall)
  tool_call_id : Option String
deriving DecidableEq

/-- The `messages.map` of `OpenAIProvider.chatCompletion`. -/
def openaiMessages (messages : List ChatMessage) : List OpenAIMessage :=
  messages.map fun m => ⟨roleString m.role, m.content, m.toolCalls, m.toolCallId⟩

/-- The `history` built by `GoogleProvider.chatCompletion`
(google.provider.ts:34-37): all messages but the last, an assistant message
becoming role `model` and EVERY other role — `system` included — becoming
role `user` in the conversation body. -/
def googleHistory (messages : List ChatMessage) : List (String × String) :=
  messages.dropLast.map fun m =>
    (if m.role = Role.assistant then "model" else "user", m.content)

/-- The `system` parameter of the Anthropic request
(anthropic provider, line 33): the first system-role message's content,
passed out-of-band. -/
def anthropicSystem (messages : List ChatMessage) : Option String :=
  (messages.find? fun m => m.role = Role.system).map fun m => m.content

/-- The `messages` array of the Anthropic request (anthropic provider,
lines 34 and 41-44): the system-role messages filtered out, the rest mapped
to role/content pairs. -/
def anthropicConversation (messages : List ChatMessage) : List (String × String) :=
  (messages.filter fun m => decide (m.role ≠ Role.system)).map fun m =>
    (roleString m.role, m.content)

/-- `usageMetadata` of a Google reply; each field optional, `?? 0` applied on
use. -/
structure GoogleUsageMeta where
  promptTokenCount : Option Nat
  candidatesTokenCount : Option Nat
  totalTokenCount : Option Nat
deriving DecidableEq

/-- A Google backend reply: `response.text()` plus optional usage metadata. -/
structure GoogleReply where
  text : String
  usageMetadata : Option GoogleUsageMeta
deriving DecidableEq

/-- The `try` body of `GoogleProvider.chatCompletion`
(google.provider.ts:20-60), given the backend's reply: if there is no last
message, throw `No messages provided`; otherwise return the raw reply text as
`content` with finish reason `stop` — no `toolCalls` key is ever produced and
the `tools` argument is never consulted, so no textual tool-call extraction of
any kind takes place. -/
def googleChatCompletionBody (messages : List ChatMessage)
    (tools : Option (List Tool)) (reply : GoogleReply) :
    Except LLMProviderError LLMResponse :=
  match messages.getLast? with
  | none => Except.error ⟨"No messages provided", "google"⟩
  | some _ =>
    Except.ok
      { content := reply.text
        toolCalls := none
        finishReason := FinishReason.stop
        usage := reply.usageMetadata.map fun u =>
          ⟨u.promptTokenCount.getD 0, u.candidatesTokenCount.getD 0,
            u.totalTokenCount.getD 0⟩ }

/-- `GoogleProvider.chatCompletion` including the `catch` that rewraps any
error as `Google request failed: …` (google.provider.ts:61-68). -/
def googleChatCompletion (messages : List ChatMessage)
    (tools : Option (List Tool)) (reply : GoogleReply) :
    Except LLMProviderError LLMResponse :=
  match googleChatCompletionBody messages tools reply with
  | Except.ok r => Except.ok r
  | Except.error e => Except.error ⟨"Google request failed: " ++ e.message, "google"⟩

/-- One block of an Anthropic reply's `content` array: a text block, or any
other block type (e.g. a native `tool_use` block). -/
inductive AnthropicBlock
  | text (text : String)
  | other (type : String)
deriving DecidableEq

/-- `usage` of an Anthropic reply. -/
structure AnthropicUsage where
  input_tokens : Nat
  output_tokens : Nat
deriving DecidableEq

/-- An Anthropic backend reply. -/
structure AnthropicReply where
  content : List AnthropicBlock
  stop_reason : Option String
  usage : Option AnthropicUsage
deriving DecidableEq

/-- `AnthropicProvider.mapFinishReason` (anthropic provider, lines 94-101). -/
def mapAnthropicFinishReason : Option String → FinishReason
  | some "end_turn" => FinishReason.stop
  | some "max_tokens" => FinishReason.length
  | some "stop_sequence" => FinishReason.stop
  | _ => FinishReason.stop

/-- The `try` body of `AnthropicProvider.chatCompletion` (anthropic provider,
lines 48-61), given the backend's reply: if `response.content[0]` is not a
text block (missing, or e.g. a `tool_use` block), throw
`Unexpected response format from Anthropic`; otherwise return the text with
no `toolCalls` key. -/
def anthropicChatCompletionBody (messages : List ChatMessage)
    (reply : AnthropicReply) : Except LLMProviderError LLMResponse :=
  match reply.content.head? with
  | some (AnthropicBlock.text t) =>
    Except.ok
      { content := t
        toolCalls := none
        finishReason := mapAnthropicFinishReason reply.stop_reason
        usage := reply.usage.map fun u =>
          ⟨u.input_tokens, u.output_tokens, u.input_tokens + u.output_tokens⟩ }
  | _ => Except.error ⟨"Unexpected response format from Anthropic", "anthropic"⟩

/-- `AnthropicProvider.chatCompletion` including the `catch` that rewraps any
error as `Anthropic request failed: …` (anthropic provider, lines 62-69). -/
def anthropicChatCompletion (messages : List ChatMessage)
    (reply : AnthropicReply) : Except LLMProviderError LLMResponse :=
  match anthropicChatCompletionBody messages reply with
  | Except.ok r => Except.ok r
  | Except.error e =>
    Except.error ⟨"Anthropic request failed: " ++ e.message, "anthropic"⟩

/-! ## Claim C3 — no textual tool-call extraction in the Google adapter -/

/-- Claim C3, counterexample: a raw reply containing one well-formed bracketed
tool-call block and one malformed fenced `tool_call` block.  The claim
predicts a ChatResponse whose `toolCalls` holds exactly one synthesized
ToolCall; the code performs no marker scanning at all, so no successful result
carries a single extracted ToolCall. -/
theorem google_tool_extraction_cex :
    ¬ ∃ r tc, googleChatCompletion [⟨Role.user, "use the tool", none, none⟩]
        (some [⟨"echo", "echo tool", "schema"⟩])
        ⟨"[TOOL_CALL]\x7b\"name\": \"echo\", \"arguments\": \x7b\x7d\x7d[/TOOL_CALL]\n```tool_call\nnot json\n```",
          none⟩
      = Except.ok r ∧ r.toolCalls = some [tc] := by
  rintro ⟨r, tc, hr, htc⟩
  have h2 := Except.ok.inj hr
  rw [← h2] at htc
  exact Option.noConfusion htc

/-- Claim C3, amended: the Google adapter performs no text-convention
tool-call extraction whatsoever — whatever markers the raw reply text
contains, every successful `chatCompletion` result carries the reply text
verbatim as `content` and has no `toolCalls` at all (and the malformed block
causes no failure only because no block is ever examined). -/
theorem google_no_tool_extraction
    (messages : List ChatMessage) (tools : Option (List Tool))
    (reply : GoogleReply) (r : LLMResponse)
    (h : googleChatCompletion messages tools reply = Except.ok r) :
    r.toolCalls = none ∧ r.content = reply.text := by
  unfold googleChatCompletion googleChatCompletionBody at h
  cases hm : messages.getLast? with
  | none =>
    rw [hm] at h
    exact Except.noConfusion h
  | some m =>
    rw [hm] at h
    have h2 := Except.ok.inj h
    rw [← h2]
    exact ⟨rfl, rfl⟩

/-- Claim C3, witness: the amended theorem at the counterexample's input. -/
theorem google_no_tool_extraction_inst :
    (LLMResponse.mk
        "[TOOL_CALL]\x7b\"name\": \"echo\", \"arguments\": \x7b\x7d\x7d[/TOOL_CALL]\n```tool_call\nnot json\n```"
        none FinishReason.stop none).toolCalls = none
    ∧ (LLMResponse.mk
        "[TOOL_CALL]\x7b\"name\": \"echo\", \"arguments\": \x7b\x7d\x7d[/TOOL_CALL]\n```tool_call\nnot json\n```"
        none FinishReason.stop none).content
      = (GoogleReply.mk
        "[TOOL_CALL]\x7b\"name\": \"echo\", \"arguments\": \x7b\x7d\x7d[/TOOL_CALL]\n```tool_call\nnot json\n```"
        none).text :=
  google_no_tool_extraction [⟨Role.user, "use the tool", none, none⟩]
    (some [⟨"echo", "echo tool", "schema"⟩])
    (GoogleReply.mk
      "[TOOL_CALL]\x7b\"name\": \"echo\", \"arguments\": \x7b\x7d\x7d[/TOOL_CALL]\n```tool_call\nnot json\n```"
      none)
    (LLMResponse.mk
      "[TOOL_CALL]\x7b\"name\": \"echo\", \"arguments\": \x7b\x7d\x7d[/TOOL_CALL]\n```tool_call\nnot json\n```"
      none FinishReason.stop none)
    rfl

/-! ## Claim C8 — system-message handling per adapter -/

/-- Claim C8, counterexample: for a conversation `[system "sys", user
"hello"]`, the OpenAI adapter places the system message in-band in the request
`messages` array as an ordinary `role: system` member, and the Google adapter
folds it into the chat history as an ordinary `role: user` turn — both
contradicting the claim that every adapter passes the system message
out-of-band and never as an ordinary member of the conversation body. -/
theorem system_inband_cex :
    OpenAIMessage.mk "system" "sys" none none
        ∈ openaiMessages [⟨Role.system, "sys", none, none⟩, ⟨Role.user, "hello", none, none⟩]
    ∧ ("user", "sys")
        ∈ googleHistory [⟨Role.system, "sys", none, none⟩, ⟨Role.user, "hello", none, none⟩] := by
  constructor <;> decide

/-- Claim C8, amended: only the Anthropic adapter separates the system message
out-of-band — its conversation body never contains a system-role entry (the
extracted content travels in the dedicated `anthropicSystem` slot) — while the
OpenAI adapter forwards a system message in-band as a `role: system` member of
the request body, and the Google adapter folds every non-final system message
into the chat history as a `role: user` turn. -/
theorem system_message_handling (messages : List ChatMessage) :
    (∀ p ∈ anthropicConversation messages, p.1 ≠ "system")
    ∧ (∀ m ∈ messages, m.role = Role.system →
        OpenAIMessage.mk "system" m.content m.toolCalls m.toolCallId
          ∈ openaiMessages messages)
    ∧ (∀ m ∈ messages.dropLast, m.role = Role.system →
        ("user", m.content) ∈ googleHistory messages) := by
  refine ⟨?_, ?_, ?_⟩
  · intro p hp
    unfold anthropicConversation at hp
    obtain ⟨m, hm, hpm⟩ := List.mem_map.1 hp
    have hrole : m.role ≠ Role.system := by
      have h2 := (List.mem_filter.1 hm).2
      simpa using h2
    rw [← hpm]
    cases hr : m.role with
    | user => exact (by decide : ("user" : String) ≠ "system")
    | assistant => exact (by decide : ("assistant" : String) ≠ "system")
    | system => exact absurd hr hrole
  · intro m hm hrole
    unfold openaiMessages
    refine List.mem_map.2 ⟨m, hm, ?_⟩
    show OpenAIMessage.mk (roleString m.role) m.content m.toolCalls m.toolCallId
        = OpenAIMessage.mk "system" m.content m.toolCalls m.toolCallId
    rw [hrole]
    rfl
  · intro m hm hrole
    unfold googleHistory
    refine List.mem_map.2 ⟨m, hm, ?_⟩
    show ((if m.role = Role.assistant then "model" else "user"), m.content)
        = ("user", m.content)
    rw [hrole]
    simp

/-- Claim C8, witness: the amended theorem at the counterexample's
conversation. -/
theorem system_message_handling_inst :
    (("user", "hi") : String × String).1 ≠ "system"
    ∧ OpenAIMessage.mk "system" "s" none none
        ∈ openaiMessages [⟨Role.system, "s", none, none⟩, ⟨Role.user, "hi", none, none⟩]
    ∧ ("user", "s")
        ∈ googleHistory [⟨Role.system, "s", none, none⟩, ⟨Role.user, "hi", none, none⟩] :=
  ⟨(system_message_handling
        [⟨Role.system, "s", none, none⟩, ⟨Role.user, "hi", none, none⟩]).1
      ("user", "hi") (by decide),
    (system_message_handling _).2.1 ⟨Role.system, "s", none, none⟩ (by decide) rfl,
    (system_message_handling _).2.2 ⟨Role.system, "s", none, none⟩ (by decide) rfl⟩

/-! ## Claim C10 — Anthropic adapter rejects non-text leading blocks -/

/-- Claim C10 (confirmed): whenever the Anthropic reply's first content block
is not a text block (a native `tool_use` block, or no block at all), the
adapter rejects with an `LLMProviderError`; and every successful result has no
`toolCalls` — the success path never populates that field. -/
theorem anthropic_rejects_non_text (messages : List ChatMessage)
    (reply : AnthropicReply) :
    ((∀ t, reply.content.head? ≠ some (AnthropicBlock.text t)) →
      ∃ e, anthropicChatCompletion messages reply = Except.error e)
    ∧ (∀ r, anthropicChatCompletion messages reply = Except.ok r →
        r.toolCalls = none) := by
  constructor
  · intro h
    unfold anthropicChatCompletion anthropicChatCompletionBody
    cases hh : reply.content.head? with
    | none => exact ⟨_, rfl⟩
    | some b =>
      cases b with
      | text t => exact absurd hh (h t)
      | other s => exact ⟨_, rfl⟩
  · intro r hr
    unfold anthropicChatCompletion anthropicChatCompletionBody at hr
    cases hh : reply.content.head? with
    | none =>
      rw [hh] at hr
      exact Except.noConfusion hr
    | some b =>
      cases b with
      | text t =>
        rw [hh] at hr
        have h2 := Except.ok.inj hr
        rw [← h2]
      | other s =>
        rw [hh] at hr
        exact Except.noConfusion hr

/-- Claim C10, witness: a reply whose first block is a native `tool_use`
block is rejected; a text reply succeeds with `toolCalls` absent. -/
theorem anthropic_rejects_non_text_inst :
    (∃ e, anthropicChatCompletion []
        (AnthropicReply.mk [AnthropicBlock.other "tool_use"] none none)
      = Except.error e)
    ∧ (LLMResponse.mk "hello" none FinishReason.stop none).toolCalls = none :=
  ⟨(anthropic_rejects_non_text [] _).1
      (by intro t h; exact absurd (Option.some.inj h) (by simp)),
    (anthropic_rejects_non_text []
        (AnthropicReply.mk [AnthropicBlock.text "hello"] (some "end_turn") none)).2
      (LLMResponse.mk "hello" none FinishReason.stop none) rfl⟩
